import Mathlib

/-!
# Verification of the BearSSLClient TLS session shim

A shallow embedding of src/src/BearSSLClient.cpp.  The class adapts a
blocking byte stream (an Arduino Client) into a TLS transport by driving
the BearSSL engine.  External collaborators (the BearSSL engine, the raw
stream, the ECCX08 hardware crypto provider, the Arduino software PRNG)
are modelled by their observable interactions: the engine calls made by
the shim are recorded as an event list, adapter and stream results are
supplied as oracle inputs, and the engine state polled by the handshake
loop is supplied as a trace.
-/

set_option autoImplicit false

namespace BearSSLClient

/-- BearSSL engine state flag: engine is closed (bearssl_ssl.h, 0x0001). -/
def BR_SSL_CLOSED : Nat := 1

/-- BearSSL engine state flag: ready to send application data (0x0008). -/
def BR_SSL_SENDAPP : Nat := 8

/-! ## Transport callbacks (BearSSLClient::clientRead / clientWrite)

Each callback performs at most one call on the raw stream.  Its behaviour
is a pure function of the stream's connected flag and the result of that
single read/write call, so we embed the callbacks as functions of those
two oracle inputs. -/

/-- BearSSLClient::clientRead (BearSSLClient.cpp lines 227-256): return -1
if the stream is disconnected; otherwise perform one read and map the
stream's -1 (no data available) result to 0, any other result unchanged. -/
def clientRead (conn : Bool) (readResult : Int) : Int :=
  if conn = false then -1
  else if readResult = -1 then 0
  else readResult

/-- BearSSLClient::clientWrite (BearSSLClient.cpp lines 258-287): return -1
if the stream is disconnected; otherwise perform one write and map a
zero-bytes-written result to -1, any other result unchanged. -/
def clientWrite (conn : Bool) (writeResult : Int) : Int :=
  if conn = false then -1
  else if writeResult = 0 then -1
  else writeResult

/-! ## connected() (BearSSLClient.cpp lines 143-156) -/

/-- BearSSLClient::connected: 0 when the raw stream reports disconnected;
otherwise 0 exactly when the engine state equals BR_SSL_CLOSED, else 1. -/
def connectedFn (rawConnected : Bool) (state : Nat) : Nat :=
  if rawConnected = false then 0
  else if state = BR_SSL_CLOSED then 0
  else 1

/-! ## Handshake completion loop (BearSSLClient.cpp lines 212-222)

connectSSL ends in an unbounded busy-wait reading the engine state.  We
model the successive values returned by br_ssl_engine_current_state as a
trace Nat → Nat and the loop as a fuel-indexed recursion: a result of
none means the loop has not returned within the given number of
iterations (so a trace on which every fuel yields none never returns). -/

/-- One iteration body of the poll loop: return 1 when the SENDAPP bit is
set (checked first), 0 when the CLOSED bit is set, otherwise keep looping. -/
def pollStep (state : Nat) : Option Nat :=
  if state &&& BR_SSL_SENDAPP ≠ 0 then some 1
  else if state &&& BR_SSL_CLOSED ≠ 0 then some 0
  else none

/-- The busy-wait loop, reading trace i at iteration i, with fuel. -/
def pollLoop (trace : Nat → Nat) (i : Nat) : Nat → Option Nat
  | 0 => none
  | fuel + 1 =>
    match pollStep (trace i) with
    | some r => some r
    | none => pollLoop trace (i + 1) fuel

/-! ## write(buf, size) (BearSSLClient.cpp lines 65-85)

The loop repeatedly calls br_sslio_write(&ioc, buf, size) — note that the
source passes the original total `size` on every iteration while the
pointer `buf` advances by the previous result.  We model the payload as a
byte memory mem : Nat → Nat addressed from the start of buf, the adapter
as a list of per-call results (a nonnegative result r means the adapter
accepted the next r bytes from the offered pointer; a negative result is
a fatal error), and record the bytes actually handed to the adapter. -/

/-- Outcome of BearSSLClient::write: the returned count, the bytes the
adapter accepted in order, and whether br_sslio_flush was invoked. -/
structure WriteResult where
  ret : Nat
  sent : List Nat
  flushCalled : Bool
deriving DecidableEq

/-- The while loop of BearSSLClient::write.  Arguments: the adapter
responses still to come, the current pointer offset into mem (buf has
been advanced by previous results), and the bytes written so far.
Returns none when the supplied adapter responses are exhausted while the
loop still runs; otherwise the final `written` counter together with the
bytes consumed by the adapter.  Each call offers the adapter the STALE
length `size` (as the source does), so a response is legal whenever
0 ≤ r ≤ size regardless of how much of the payload is left. -/
def writeLoop (mem : Nat → Nat) (size : Nat) :
    List Int → Nat → Nat → Option (Nat × List Nat)
  | [], _, written =>
    if size ≤ written then some (written, []) else none
  | r :: rest, off, written =>
    if size ≤ written then some (written, [])
    else if r < 0 then some (written, [])
    else
      (writeLoop mem size rest (off + r.toNat) (written + r.toNat)).map
        (fun ws => (ws.1, (List.range r.toNat).map (fun i => mem (off + i)) ++ ws.2))

/-- BearSSLClient::write(buf, size): run the loop from offset 0; if the
loop ended with written == size, invoke br_sslio_flush (its result is the
oracle flushResult) and force the returned count to 0 when it is
negative; otherwise return the count without flushing. -/
def writeFn (mem : Nat → Nat) (size : Nat) (resps : List Int)
    (flushResult : Int) : Option WriteResult :=
  match writeLoop mem size resps 0 0 with
  | none => none
  | some (written, sent) =>
    if written = size then
      if flushResult < 0 then some ⟨0, sent, true⟩
      else some ⟨written, sent, true⟩
    else some ⟨written, sent, false⟩

/-! ## Client credential state (BearSSLClient.cpp lines 27-36 and 163-172)

The constructor zeroes the br_ec_private_key and br_x509_certificate
fields; setEccSlot overwrites all of them.  Pointers are modelled as Nat
addresses, 0 standing for NULL; the key-slot integer is stored in the
pointer-typed field x by the source's int-to-pointer cast, which we model
as storing the integer itself as the address. -/

/-- The br_ec_private_key structure as used by the shim. -/
structure BrEcPrivateKey where
  curve : Nat
  x : Nat
  xlen : Nat
deriving DecidableEq

/-- The br_x509_certificate structure as used by the shim. -/
structure BrX509Certificate where
  data : Nat
  data_len : Nat
deriving DecidableEq

/-- The credential fields of a BearSSLClient object. -/
structure ClientState where
  ecKey : BrEcPrivateKey
  ecCert : BrX509Certificate
deriving DecidableEq

/-- The constructor BearSSLClient::BearSSLClient (lines 27-36): curve 0,
null key pointer, zero key length, null certificate, zero length. -/
def initState : ClientState := ⟨⟨0, 0, 0⟩, ⟨0, 0⟩⟩

/-- BearSSLClient::setEccSlot (lines 163-172): store curve 23, the slot
integer cast into the key pointer field, key length 32, and the caller's
certificate pointer and length verbatim. -/
def setEccSlot (s : ClientState) (ecc508KeySlot : Nat) (cert : Nat)
    (certLength : Nat) : ClientState :=
  { s with
    ecKey := ⟨23, ecc508KeySlot, 32⟩
    ecCert := ⟨cert, certLength⟩ }

/-! ## connectSSL (BearSSLClient.cpp lines 174-223)

The calls connectSSL makes into the engine are recorded as an event
list.  The external oracles are: the three ECCX08 results (begin, locked,
random), the 32 bytes the hardware RNG would produce, and the stream of
values returned by the Arduino software PRNG random(0, 255). -/

/-- Engine calls made by connectSSL, in order. -/
inductive EngineEvent where
  | profileInit
  | setBufferBidi
  | setEcdsaVrfy
  | setClientCert (certData certLen keyCurve keyX keyXlen : Nat)
  | injectEntropy (bytes : List Nat)
  | clientReset (hasHost : Bool) (resumeSession : Bool)
  | sslioInit
  | sslioFlush
deriving DecidableEq

/-- The external nondeterminism resolved during one connectSSL call. -/
structure ConnectEnv where
  beginOk : Bool
  lockedOk : Bool
  randomOk : Bool
  hwRandom : Nat → Nat
  swRandom : Nat → Nat

/-- The short-circuit condition ECCX08.begin() && ECCX08.locked() &&
ECCX08.random(entropy, 32) at line 189. -/
def hwRandomOk (env : ConnectEnv) : Bool :=
  env.beginOk && env.lockedOk && env.randomOk

/-- The 32 entropy bytes the hardware RNG deposits when it succeeds. -/
def hwEntropyBytes (env : ConnectEnv) : List Nat :=
  (List.range 32).map env.hwRandom

/-- The fallback fill loop (lines 198-200): entropy[i] = random(0, 255)
for i = 0..31.  Arduino random(0, 255) yields a value in [0, 255), which
we model as the PRNG stream value reduced mod 255. -/
def swEntropyBytes (env : ConnectEnv) : List Nat :=
  (List.range 32).map (fun i => env.swRandom i % 255)

/-- The contents of the 32-byte entropy buffer at the inject call. -/
def entropyBytes (env : ConnectEnv) : List Nat :=
  if hwRandomOk env then hwEntropyBytes env else swEntropyBytes env

/-- The engine calls of one connectSSL invocation (lines 174-210): profile
setup, buffer configuration in split mode, then — only when the hardware
RNG path succeeded — the ECDSA verify hook, and the client certificate
registration guarded by data_len and xlen both nonzero; then the single
entropy injection, the client reset with the host hint, the sslio
binding, and the initial flush.  The handshake poll loop that follows is
modelled separately by pollLoop. -/
def connectSSLEvents (s : ClientState) (env : ConnectEnv) (hasHost : Bool) :
    List EngineEvent :=
  [EngineEvent.profileInit, EngineEvent.setBufferBidi]
  ++ (if hwRandomOk env then
        EngineEvent.setEcdsaVrfy ::
          (if s.ecCert.data_len ≠ 0 ∧ s.ecKey.xlen ≠ 0 then
            [EngineEvent.setClientCert s.ecCert.data s.ecCert.data_len
              s.ecKey.curve s.ecKey.x s.ecKey.xlen]
          else [])
      else [])
  ++ [EngineEvent.injectEntropy (entropyBytes env),
      EngineEvent.clientReset hasHost false,
      EngineEvent.sslioInit,
      EngineEvent.sslioFlush]

/-- The entropy payloads injected into the engine, in order. -/
def injectedEntropies (evs : List EngineEvent) : List (List Nat) :=
  evs.filterMap (fun e =>
    match e with
    | EngineEvent.injectEntropy bs => some bs
    | _ => none)

/-- The client-certificate registrations performed, in order, each
recorded as (certData, certLen, keyCurve, keyX, keyXlen). -/
def certRegistrations (evs : List EngineEvent) :
    List (Nat × Nat × Nat × Nat × Nat) :=
  evs.filterMap (fun e =>
    match e with
    | EngineEvent.setClientCert d dl c x xl => some (d, dl, c, x, xl)
    | _ => none)

/-- BearSSLClient::connect (lines 42-58), both overloads: if the raw
stream connect fails, return 0 at once with no engine interaction at
all; otherwise run connectSSL, whose return value is the poll loop's. -/
def connectRun (s : ClientState) (env : ConnectEnv) (rawConnectOk : Bool)
    (hasHost : Bool) (trace : Nat → Nat) (fuel : Nat) :
    Option Nat × List EngineEvent :=
  if rawConnectOk then (pollLoop trace 0 fuel, connectSSLEvents s env hasHost)
  else (some 0, [])

/-- A connect environment whose hardware RNG fails (begin returns false). -/
def envHwFail : ConnectEnv := ⟨false, true, true, fun _ => 0, fun i => i⟩

/-- A connect environment whose hardware RNG path fully succeeds. -/
def envHwOk : ConnectEnv := ⟨true, true, true, fun i => i, fun i => i⟩

/-! ## Helper lemmas -/

lemma pollStep_eq_none {st : Nat} (h1 : st &&& BR_SSL_SENDAPP = 0)
    (h2 : st &&& BR_SSL_CLOSED = 0) : pollStep st = none := by
  simp [pollStep, h1, h2]

lemma pollLoop_of_step_none (trace : Nat → Nat)
    (h : ∀ i, pollStep (trace i) = none) :
    ∀ fuel i, pollLoop trace i fuel = none := by
  intro fuel
  induction fuel with
  | zero => intro i; rfl
  | succ n ih =>
    intro i
    simp only [pollLoop, h i]
    exact ih (i + 1)

lemma pollLoop_decides (trace : Nat → Nat) (r : Nat) :
    ∀ (j i fuel : Nat), j < fuel →
      (∀ k, k < j → pollStep (trace (i + k)) = none) →
      pollStep (trace (i + j)) = some r →
      pollLoop trace i fuel = some r := by
  intro j
  induction j with
  | zero =>
    intro i fuel hf _ hr
    match fuel, hf with
    | fuel + 1, _ =>
      simp only [pollLoop]
      rw [show i + 0 = i from rfl] at hr
      rw [hr]
  | succ j ih =>
    intro i fuel hf hnone hr
    match fuel, hf with
    | fuel + 1, hf =>
      have h0 : pollStep (trace i) = none := by
        have := hnone 0 (Nat.succ_pos j)
        simpa using this
      simp only [pollLoop, h0]
      refine ih (i + 1) fuel (Nat.lt_of_succ_lt_succ hf) ?_ ?_
      · intro k hk
        have := hnone (k + 1) (Nat.succ_lt_succ hk)
        rwa [show i + (k + 1) = i + 1 + k by omega] at this
      · rwa [show i + (j + 1) = i + 1 + j by omega] at hr

/-- Running the loop on nonnegative responses whose total stays short of
size, followed by one fatal response, consumes exactly the prefix of the
payload covered by the nonnegative responses and stops there. -/
lemma writeLoop_append_neg (mem : Nat → Nat) (size : Nat) (neg : Int)
    (hneg : neg < 0) :
    ∀ (rs : List Int) (off written : Nat), (∀ r ∈ rs, 0 ≤ r) →
      written + (rs.map Int.toNat).sum < size →
      writeLoop mem size (rs ++ [neg]) off written
        = some (written + (rs.map Int.toNat).sum,
            (List.range (rs.map Int.toNat).sum).map (fun i => mem (off + i))) := by
  intro rs
  induction rs with
  | nil =>
    intro off written _ hlt
    simp only [List.nil_append, List.map_nil, List.sum_nil, Nat.add_zero] at hlt ⊢
    simp [writeLoop, Nat.not_le.mpr hlt, hneg]
  | cons r rest ih =>
    intro off written hnn hlt
    have hr : 0 ≤ r := hnn r (List.mem_cons_self r rest)
    have hlt2 : written + r.toNat + (rest.map Int.toNat).sum < size := by
      simp only [List.map_cons, List.sum_cons] at hlt; omega
    have hwlt : written < size := by omega
    have hrec := ih (off + r.toNat) (written + r.toNat)
      (fun x hx => hnn x (List.mem_cons_of_mem r hx)) hlt2
    simp only [List.cons_append, writeLoop, List.append_eq]
    rw [if_neg (Nat.not_le.mpr hwlt), if_neg (Int.not_lt.mpr hr), hrec]
    simp only [Option.map_some', List.map_cons, List.sum_cons]
    refine congrArg some (Prod.ext ?_ ?_)
    · simp; omega
    · simp only [List.range_add, List.map_append, List.map_map]
      refine congrArg (fun t =>
        (List.range r.toNat).map (fun i => mem (off + i)) ++ t) ?_
      refine List.map_congr_left ?_
      intro a _
      simp [Function.comp, Nat.add_assoc]

/-- Closed form for the certificate registrations of one connectSSL. -/
lemma certRegistrations_connectSSLEvents (s : ClientState) (env : ConnectEnv)
    (hasHost : Bool) :
    certRegistrations (connectSSLEvents s env hasHost)
      = if hwRandomOk env = true ∧ s.ecCert.data_len ≠ 0 ∧ s.ecKey.xlen ≠ 0
        then [(s.ecCert.data, s.ecCert.data_len, s.ecKey.curve,
               s.ecKey.x, s.ecKey.xlen)]
        else [] := by
  unfold connectSSLEvents certRegistrations
  by_cases hhw : hwRandomOk env = true
  · by_cases hg : s.ecCert.data_len ≠ 0 ∧ s.ecKey.xlen ≠ 0
    · simp [hhw, hg]
    · simp [hhw, hg]
  · simp [hhw]

/-- Closed form for the entropy injections of one connectSSL. -/
lemma injectedEntropies_connectSSLEvents (s : ClientState) (env : ConnectEnv)
    (hasHost : Bool) :
    injectedEntropies (connectSSLEvents s env hasHost) = [entropyBytes env] := by
  unfold connectSSLEvents injectedEntropies
  by_cases hhw : hwRandomOk env = true
  · by_cases hg : s.ecCert.data_len ≠ 0 ∧ s.ecKey.xlen ≠ 0
    · simp [hhw, hg]
    · simp [hhw, hg]
  · simp [hhw]

/-! ## Claim theorems -/

/-- C1 (refuted): the claim says write(buf, S) passes exactly the S bytes
buf[0..S) to the adapter, nothing beyond them, and returns S when no
adapter call errors.  The source passes the stale total length `size` to
br_sslio_write on every iteration while advancing the buffer pointer, so
after a partial write the adapter is offered — and may legally accept —
bytes past the end of the payload.  Concretely, for a 2-byte payload with
the identity byte memory, an error-free adapter that accepts 1 byte on
the first call and 2 bytes on the second receives the three bytes at
offsets 0, 1 and 2 (offset 2 is beyond the payload) and write returns 3,
not 2, skipping the flush. -/
theorem write_stale_length_overrun :
    writeFn (fun i => i) 2 [1, 2] 0 = some ⟨3, [0, 1, 2], false⟩ := by
  decide

/-- C2: the handshake completion loop of connectSSL never returns while
the polled engine state has neither the SENDAPP bit nor the CLOSED bit
set (none at every fuel), returns 1 at the first polled state with the
SENDAPP bit set, and returns 0 at the first polled state with the CLOSED
bit set (SENDAPP clear, as SENDAPP is checked first); no timeout is
involved. -/
theorem handshake_poll_loop_spec (trace : Nat → Nat) :
    ((∀ i, trace i &&& BR_SSL_SENDAPP = 0 ∧ trace i &&& BR_SSL_CLOSED = 0) →
      ∀ fuel i, pollLoop trace i fuel = none)
    ∧ (∀ j fuel, j < fuel →
        (∀ k, k < j →
          trace k &&& BR_SSL_SENDAPP = 0 ∧ trace k &&& BR_SSL_CLOSED = 0) →
        trace j &&& BR_SSL_SENDAPP ≠ 0 →
        pollLoop trace 0 fuel = some 1)
    ∧ (∀ j fuel, j < fuel →
        (∀ k, k < j →
          trace k &&& BR_SSL_SENDAPP = 0 ∧ trace k &&& BR_SSL_CLOSED = 0) →
        trace j &&& BR_SSL_SENDAPP = 0 → trace j &&& BR_SSL_CLOSED ≠ 0 →
        pollLoop trace 0 fuel = some 0) := by
  refine ⟨?_, ?_, ?_⟩
  · intro h fuel i
    exact pollLoop_of_step_none trace
      (fun k => pollStep_eq_none (h k).1 (h k).2) fuel i
  · intro j fuel hf hnone hs
    refine pollLoop_decides trace 1 j 0 fuel hf ?_ ?_
    · intro k hk
      have := pollStep_eq_none (hnone k hk).1 (hnone k hk).2
      simpa [Nat.zero_add] using this
    · simp only [Nat.zero_add]
      simp [pollStep, hs]
  · intro j fuel hf hnone hs hc
    refine pollLoop_decides trace 0 j 0 fuel hf ?_ ?_
    · intro k hk
      have := pollStep_eq_none (hnone k hk).1 (hnone k hk).2
      simpa [Nat.zero_add] using this
    · simp only [Nat.zero_add]
      simp [pollStep, hs, hc]

/-- Witness for C2: a trace stuck at state 0 never returns within 3
iterations; a trace at state 8 (SENDAPP) returns 1 at once; a trace at
state 1 (CLOSED) returns 0 at once. -/
theorem handshake_poll_loop_spec_witness :
    pollLoop (fun _ => 0) 0 3 = none
    ∧ pollLoop (fun _ => 8) 0 2 = some 1
    ∧ pollLoop (fun _ => 1) 0 2 = some 0 := by
  refine ⟨?_, ?_, ?_⟩
  · exact (handshake_poll_loop_spec (fun _ => 0)).1 (fun _ => ⟨rfl, rfl⟩) 3 0
  · exact (handshake_poll_loop_spec (fun _ => 8)).2.1 0 2 (by decide)
      (fun k hk => absurd hk (Nat.not_lt_zero k)) (by decide)
  · exact (handshake_poll_loop_spec (fun _ => 1)).2.2 0 2 (by decide)
      (fun k hk => absurd hk (Nat.not_lt_zero k)) (by decide) (by decide)

/-- C3: connectSSL injects entropy into the engine exactly once, always
32 bytes; whenever the hardware-RNG condition (begin AND locked AND
random) fails, the injected buffer is the one filled by the software
pseudo-random generator. -/
theorem connect_entropy_injection (s : ClientState) (env : ConnectEnv)
    (hasHost : Bool) :
    injectedEntropies (connectSSLEvents s env hasHost) = [entropyBytes env]
    ∧ (entropyBytes env).length = 32
    ∧ (hwRandomOk env = false → entropyBytes env = swEntropyBytes env) := by
  refine ⟨injectedEntropies_connectSSLEvents s env hasHost, ?_, ?_⟩
  · unfold entropyBytes hwEntropyBytes swEntropyBytes
    split <;> simp
  · intro h
    simp [entropyBytes, h]

/-- Witness for C3: with begin failing, the single injected buffer is the
software-generated one and has 32 bytes. -/
theorem connect_entropy_injection_witness :
    injectedEntropies (connectSSLEvents initState envHwFail false)
      = [entropyBytes envHwFail]
    ∧ (entropyBytes envHwFail).length = 32
    ∧ entropyBytes envHwFail = swEntropyBytes envHwFail := by
  have h := connect_entropy_injection initState envHwFail false
  exact ⟨h.1, h.2.1, h.2.2 rfl⟩

/-- C4: connectSSL registers a client certificate with the engine exactly
when the hardware-RNG path succeeded and both the stored certificate
length and the stored key length are nonzero; in particular configuring
via setEccSlot with a zero-length certificate (from the freshly
constructed state) never leads to a registration. -/
theorem client_cert_registration_guard (s : ClientState) (env : ConnectEnv)
    (hasHost : Bool) :
    (certRegistrations (connectSSLEvents s env hasHost) ≠ [] ↔
      hwRandomOk env = true ∧ s.ecCert.data_len ≠ 0 ∧ s.ecKey.xlen ≠ 0)
    ∧ (∀ slot cert,
        certRegistrations
          (connectSSLEvents (setEccSlot initState slot cert 0) env hasHost)
          = []) := by
  constructor
  · rw [certRegistrations_connectSSLEvents]
    by_cases h : hwRandomOk env = true ∧ s.ecCert.data_len ≠ 0 ∧ s.ecKey.xlen ≠ 0
    · simp [h]
    · simp [h]
  · intro slot cert
    rw [certRegistrations_connectSSLEvents]
    simp [setEccSlot]

/-- Witness for C4: a zero-length certificate configured in slot 1 is not
registered even when the hardware RNG path fully succeeds. -/
theorem client_cert_registration_guard_witness :
    certRegistrations
      (connectSSLEvents (setEccSlot initState 1 7 0) envHwOk false) = [] :=
  (client_cert_registration_guard initState envHwOk false).2 1 7

/-- C5: when the write loop has accepted the full requested length
(written = size) and the subsequent br_sslio_flush reports a negative
result, write returns 0 rather than the accepted count. -/
theorem write_flush_failure_forces_zero (mem : Nat → Nat) (size : Nat)
    (resps : List Int) (sent : List Nat) (fr : Int)
    (hloop : writeLoop mem size resps 0 0 = some (size, sent)) (hfr : fr < 0) :
    writeFn mem size resps fr = some ⟨0, sent, true⟩ := by
  unfold writeFn
  rw [hloop]
  simp [hfr]

/-- Witness for C5: a 1-byte payload fully accepted in one call, with a
failing flush, yields a returned count of 0. -/
theorem write_flush_failure_forces_zero_witness :
    writeFn (fun i => i) 1 [1] (-1) = some ⟨0, [0], true⟩ :=
  write_flush_failure_forces_zero (fun i => i) 1 [1] [0] (-1) (by decide)
    (by decide)

/-- C6: if the adapter reports a negative result after accepting K < S
bytes (K the total of its earlier nonnegative results), write stops at
once, returns K — the bytes accepted being exactly the first K payload
bytes — and does not invoke flush. -/
theorem write_adapter_error_returns_count_so_far (mem : Nat → Nat) (S : Nat)
    (rs : List Int) (neg fr : Int) (hneg : neg < 0)
    (hnn : ∀ r ∈ rs, 0 ≤ r) (hK : (rs.map Int.toNat).sum < S) :
    writeFn mem S (rs ++ [neg]) fr
      = some ⟨(rs.map Int.toNat).sum,
          (List.range (rs.map Int.toNat).sum).map mem, false⟩ := by
  have h := writeLoop_append_neg mem S neg hneg rs 0 0 hnn (by simpa using hK)
  simp only [Nat.zero_add] at h
  unfold writeFn
  rw [h]
  simp [Nat.ne_of_lt hK]

/-- Witness for C6: payload of 2 bytes, adapter accepts 1 byte then
fails; write returns 1, only byte 0 was passed, and flush is skipped. -/
theorem write_adapter_error_returns_count_so_far_witness :
    writeFn (fun i => i) 2 [1, -1] 0 = some ⟨1, [0], false⟩ := by
  have h := write_adapter_error_returns_count_so_far (fun i => i) 2 [1] (-1) 0
    (by decide) (by decide) (by decide)
  simpa using h

/-- C7: the read transport callback returns -1 whenever the stream
reports disconnected, maps the stream's -1 (no data) result to 0, and
returns the stream's byte count unchanged otherwise; the write transport
callback returns -1 whenever the stream reports disconnected, maps a
zero-bytes-written result to -1, and returns the actual count for any
other (partial) write. -/
theorem transport_callbacks_spec (r w : Int) :
    clientRead false r = -1
    ∧ clientRead true (-1) = 0
    ∧ (r ≠ -1 → clientRead true r = r)
    ∧ clientWrite false w = -1
    ∧ clientWrite true 0 = -1
    ∧ (w ≠ 0 → clientWrite true w = w) := by
  refine ⟨by simp [clientRead], by simp [clientRead], ?_,
    by simp [clientWrite], by simp [clientWrite], ?_⟩
  · intro hr
    simp [clientRead, hr]
  · intro hw
    simp [clientWrite, hw]

/-- Witness for C7 at stream results 5 (read) and 3 (write). -/
theorem transport_callbacks_spec_witness :
    clientRead false 5 = -1 ∧ clientRead true (-1) = 0 ∧ clientRead true 5 = 5
    ∧ clientWrite false 3 = -1 ∧ clientWrite true 0 = -1
    ∧ clientWrite true 3 = 3 := by
  have h := transport_callbacks_spec 5 3
  exact ⟨h.1, h.2.1, h.2.2.1 (by decide), h.2.2.2.1, h.2.2.2.2.1,
    h.2.2.2.2.2 (by decide)⟩

/-- C8: connected() returns 0 when the raw stream reports disconnected;
with the raw stream connected it returns 0 exactly when the engine state
equals the BR_SSL_CLOSED bitmask and 1 for every other state — in
particular it returns 0 at the closed state even while the raw stream
still reports connected. -/
theorem connected_spec (raw : Bool) (state : Nat) :
    (raw = false → connectedFn raw state = 0)
    ∧ (raw = true → (connectedFn raw state = 0 ↔ state = BR_SSL_CLOSED))
    ∧ connectedFn true BR_SSL_CLOSED = 0 := by
  refine ⟨?_, ?_, by decide⟩
  · intro h
    simp [connectedFn, h]
  · intro h
    subst h
    by_cases hs : state = BR_SSL_CLOSED
    · simp [connectedFn, hs]
    · simp [connectedFn, hs]

/-- Witness for C8: disconnected stream at state 7, and a connected
stream at the handshaking state 2 versus the closed state 1. -/
theorem connected_spec_witness :
    connectedFn false 7 = 0
    ∧ (connectedFn true 2 = 0 ↔ (2 : Nat) = BR_SSL_CLOSED) := by
  exact ⟨(connected_spec false 7).1 rfl, (connected_spec true 2).2.1 rfl⟩

/-- C9: when the raw transport connect call fails, connect (either
overload) returns 0 immediately and performs no engine operation at all
— the recorded engine-event list is empty, so engine context, entropy
state and record buffer are untouched. -/
theorem connect_raw_failure_no_engine_ops (s : ClientState) (env : ConnectEnv)
    (hasHost : Bool) (trace : Nat → Nat) (fuel : Nat) :
    connectRun s env false hasHost trace fuel = (some 0, []) := by
  simp [connectRun]

/-- C10 counterexample: the claim says that for every slot value a
setEccSlot call with a non-empty certificate activates client-certificate
registration at the next connect.  At the concrete input setEccSlot with
slot 0 and a 1-byte certificate, a next connect during which the hardware
RNG begin() fails performs no client-certificate registration, refuting
the claim as stated. -/
theorem setEccSlot_activation_counterexample :
    certRegistrations
      (connectSSLEvents (setEccSlot initState 0 7 1) envHwFail false) = [] := by
  decide

/-- C10 (amended): setEccSlot unconditionally stores curve identifier 23
and key length 32 regardless of the slot argument, storing the slot
integer itself (0 becoming the null pointer) in the key's pointer field;
since connect's client-authentication guard tests only the stored
certificate length and key length, every slot value with a non-empty
certificate leads to client-certificate registration at the next connect
whose hardware-RNG path succeeds — with exactly the stored values. -/
theorem setEccSlot_activates_registration (s : ClientState)
    (slot cert n : Nat) (env : ConnectEnv) (hasHost : Bool)
    (hn : n ≠ 0) (hhw : hwRandomOk env = true) :
    (setEccSlot s slot cert n).ecKey.curve = 23
    ∧ (setEccSlot s slot cert n).ecKey.xlen = 32
    ∧ (setEccSlot s slot cert n).ecKey.x = slot
    ∧ certRegistrations
        (connectSSLEvents (setEccSlot s slot cert n) env hasHost)
        = [(cert, n, 23, slot, 32)] := by
  refine ⟨rfl, rfl, rfl, ?_⟩
  rw [certRegistrations_connectSSLEvents]
  simp [setEccSlot, hhw, hn]

/-- Witness for the amended C10: slot 0 with a 1-byte certificate is
registered, with curve 23, key length 32 and null key pointer, when the
hardware RNG path succeeds. -/
theorem setEccSlot_activates_registration_witness :
    (setEccSlot initState 0 7 1).ecKey.curve = 23
    ∧ (setEccSlot initState 0 7 1).ecKey.xlen = 32
    ∧ (setEccSlot initState 0 7 1).ecKey.x = 0
    ∧ certRegistrations
        (connectSSLEvents (setEccSlot initState 0 7 1) envHwOk false)
        = [(7, 1, 23, 0, 32)] :=
  setEccSlot_activates_registration initState 0 7 1 envHwOk false (by decide)
    (by decide)

end BearSSLClient
